import Mathlib

/-!
Shallow embedding of `src/squeue-gui.py`: the table model `SqueueGUIModel`
(cell array, headers, sort state), the snapshot-building steps inlined in
`SQGUIMainWindow.refresh`, and the auto-refresh interval handler.
Machine-level concerns (Qt signal delivery, subprocess execution, pandas
internals) are modelled at their observable boundary: a query outcome is an
`Except` value, a raised Python exception is an `Except.error` result.
-/

/-- Cell values held by the table: strings, integers, and instants
(pandas Timestamps, represented by their epoch seconds). -/
inductive Val
  | str (s : String)
  | int (n : Int)
  | instant (epochSecs : Int)
deriving DecidableEq, Repr

/-- Constructor tag of a value, used to state that a column holds
homogeneously typed cells. -/
def Val.tag : Val → Nat
  | .str _ => 0
  | .int _ => 1
  | .instant _ => 2

/-- Python comparison `a <= b` between two cell values of the same type
(numpy compares object-dtype cells with Python comparison; a mixed-type
comparison raises, and every column the program sorts is homogeneous). -/
def valLe : Val → Val → Bool
  | .str a, .str b => decide (a ≤ b)
  | .int a, .int b => decide (a ≤ b)
  | .instant a, .instant b => decide (a ≤ b)
  | _, _ => false

/-- A table row: one cell per column, in column order. -/
abbrev Row := List Val

/-- A two-dimensional numpy array of cells: the rows plus the column
dimension (an ndarray knows its width even when it has zero rows). -/
structure NArr where
  rows : List Row
  ncols : Nat
deriving DecidableEq, Repr

/-- Cell of a row at a column index (`row[c]`). -/
def cellAt (c : Nat) (row : Row) : Val := row.getD c (.int 0)

/-- Column `c` of the row list, as a list of cells (`array[:, c]`). -/
def colVals (rows : List Row) (c : Nat) : List Val := rows.map (cellAt c)

/-- Key consulted by `argsort` at index `i`; every index the sort actually
compares is in range, so the fallback (the first key, if any) is inert. -/
def keyAt (keys : List Val) (i : Nat) : Val := keys.getD i (keys.headD (.int 0))

/-- Index permutation produced by `numpy.argsort` on `keys`: the indices
`0, ..., n-1` listed in nondecreasing key order, with tied indices kept in
position order (numpy falls back to a stable insertion sort at the array
sizes where ties are observable here). -/
def argsort (keys : List Val) : List Nat :=
  List.insertionSort (fun i j => valLe (keyAt keys i) (keyAt keys j) = true)
    (List.range keys.length)

/-- The two Qt sort directions passed to `sort` (`Qt.AscendingOrder`,
`Qt.DescendingOrder`). -/
inductive SortOrder
  | Ascending
  | Descending
deriving DecidableEq, Repr

/-- Row order produced by the sorting block shared by `SqueueGUIModel.sort`
and `SqueueGUIModel.update_model` (lines 76-82 and 141-144):
`argsort = self.array[:, column].argsort()`, reversed when
`order == Qt.AscendingOrder`, then `self._array = self.array[argsort]`. -/
def sortRows (a : NArr) (column : Nat) (order : SortOrder) : NArr :=
  let asort := argsort (colVals a.rows column)
  let asort := if order = .Ascending then asort.reverse else asort
  ⟨asort.map (fun i => a.rows.getD i []), a.ncols⟩

/-- State of `SqueueGUIModel` (lines 46-145): the cell array, the header
names, the cached shape `r × c`, and the active sort column and direction. -/
structure SqueueGUIModel where
  array : NArr
  headers : List String
  r : Nat
  c : Nat
  sortby : Nat
  sortord : SortOrder
deriving DecidableEq, Repr

/-- `SqueueGUIModel.__init__(array, headers)` (lines 47-53). -/
def SqueueGUIModel.init (array : NArr) (headers : List String) : SqueueGUIModel :=
  { array := array, headers := headers,
    r := array.rows.length, c := array.ncols,
    sortby := 0, sortord := .Descending }

/-- `SqueueGUIModel.sort(column, order)` (lines 137-145): record the new sort
state, then reorder the current array under it. -/
def SqueueGUIModel.sort (m : SqueueGUIModel) (column : Nat) (order : SortOrder) :
    SqueueGUIModel :=
  { m with sortby := column, sortord := order,
           array := sortRows m.array column order }

/-- Python `list.index(x)` restricted to the found case: the first index of
`x` in the list, or `none` when `x not in` the list. -/
def listIndex (x : String) : List String → Option Nat
  | [] => none
  | h :: t => if h = x then some 0 else (listIndex x t).map (· + 1)

/-- `SqueueGUIModel.update_model(new_array, new_headers)` (lines 63-84):
remember the active sort column name, install the new array, headers and
shape, rebind the sort column (first index of the remembered name in the new
headers, else 0, direction untouched), and re-sort the installed array under
the resulting sort state. -/
def SqueueGUIModel.update_model (m : SqueueGUIModel) (new_array : NArr)
    (new_headers : List String) : SqueueGUIModel :=
  let old_sortvar := m.headers.getD m.sortby ""
  let sortby :=
    match listIndex old_sortvar new_headers with
    | some i => i
    | none => 0
  { array := sortRows new_array sortby m.sortord,
    headers := new_headers,
    r := new_array.rows.length, c := new_array.ncols,
    sortby := sortby, sortord := m.sortord }

/-- `rowCount()` (lines 86-87): the cached row dimension. -/
def SqueueGUIModel.rowCount (m : SqueueGUIModel) : Nat := m.r

/-- `columnCount()` (lines 89-90): the cached column dimension. -/
def SqueueGUIModel.columnCount (m : SqueueGUIModel) : Nat := m.c

/-- Rendered cell content returned by `data(..., Qt.DisplayRole)`: the
literal string `N/A`, the calendar rendering `value.isoformat()` of the
instant with the given epoch seconds, or the raw non-datetime value. -/
inductive Rendered
  | na
  | isoDate (epochSecs : Int)
  | plain (v : Val)
deriving DecidableEq, Repr

/-- Display conversion of one cell (lines 110-119): a datetime cell whose
epoch seconds equal 18000 renders as `N/A`; any other datetime renders as
its ISO calendar form; non-datetime cells are returned as they are. -/
def displayValue : Val → Rendered
  | .instant s => if s = 18000 then .na else .isoDate s
  | v => .plain v

/-- `data(index, Qt.DisplayRole)` (lines 101-120) on a row/column pair:
bounds-checked display of the addressed cell. -/
def SqueueGUIModel.data (m : SqueueGUIModel) (row column : Nat) : Option Rendered :=
  if row < m.rowCount ∧ column < m.columnCount then
    some (displayValue (cellAt column (m.array.rows.getD row [])))
  else none

/-- Outcome of `setData(index, value, role)` (lines 122-135): `some (model,
accepted)` when the call returns, `none` when it raises. After the role and
bounds checks the code runs `self.array.values[row][column] = value`, but
`_array` is a numpy ndarray, which has no attribute `values`, so the
in-bounds edit path raises `AttributeError` before writing anything. -/
def SqueueGUIModel.setData (m : SqueueGUIModel) (row column : Nat) (value : Val)
    (editRole : Bool) : Option (SqueueGUIModel × Bool) :=
  if ¬ editRole then some (m, false)
  else if m.rowCount ≤ row then some (m, false)
  else if m.columnCount ≤ column then some (m, false)
  else none

/-- `SQUEUE_TIMEVAR` (lines 36-43): the timestamp-bearing column names. -/
def SQUEUE_TIMEVAR : List String :=
  ["accrue_time", "eligible_time", "end_time", "last_sched_evaluation",
   "start_time", "submit_time"]

/-- `self.sqcols` (lines 168-176): the fixed column set, in order. -/
def sqcols : List String :=
  ["job_id", "job_state", "user_name", "qos", "node_count", "cpus", "start_time"]

/-- A raw squeue record: one decoded JSON job object, as field-name/value
pairs. -/
abbrev RawRecord := List (String × Val)

/-- Field lookup in a raw record. -/
def lookupField (rec : RawRecord) (c : String) : Option Val := rec.lookup c

/-- Projection of one record onto `cols`, in order (one row of
`self.sqdata[self.sqcols]`); fails — pandas `KeyError`, the
`SchemaMismatch` of the spec — when a required column is absent. -/
def project (rec : RawRecord) : List String → Option Row
  | [] => some []
  | c :: cs =>
    match lookupField rec c, project rec cs with
    | some v, some row => some (v :: row)
    | _, _ => none

/-- Projection of every record: the rows of the projected frame. -/
def projectAll (cols : List String) : List RawRecord → Option (List Row)
  | [] => some []
  | rec :: recs =>
    match project rec cols, projectAll cols recs with
    | some row, some rows => some (row :: rows)
    | _, _ => none

/-- Epoch-seconds to pandas Timestamp (`pd.to_datetime(x, unit="s")`,
line 310). -/
def coerceTime : Val → Val
  | .int n => .instant n
  | v => v

/-- Column-wise datetime conversion of a projected row (lines 308-310):
every column listed in `SQUEUE_TIMEVAR` is converted with `pd.to_datetime`. -/
def convertTimes (cols : List String) (row : Row) : Row :=
  List.zipWith (fun c v => if SQUEUE_TIMEVAR.contains c then coerceTime v else v)
    cols row

/-- SnapshotBuilder steps inlined in `refresh` (lines 287-310): project the
records onto `cols`, keep the rows whose `job_state` cell is `RUNNING` or
`PENDING`, keep only the rows owned by `uname` when the self filter is on,
then convert the timestamp columns. -/
def build (records : List RawRecord) (cols : List String) (uname : String)
    (selffil : Bool) : Option (List Row) :=
  match projectAll cols records with
  | none => none
  | some rows =>
    let sIdx := cols.findIdx (· == "job_state")
    let rows := rows.filter (fun row =>
      cellAt sIdx row == .str "RUNNING" || cellAt sIdx row == .str "PENDING")
    let uIdx := cols.findIdx (· == "user_name")
    let rows :=
      if selffil then rows.filter (fun row => cellAt uIdx row == .str uname)
      else rows
    some (rows.map (convertTimes cols))

/-- The exceptions that can escape one `refresh` call. -/
inductive RefreshErr
  | sourceUnavailable
  | schemaMismatch
deriving DecidableEq, Repr

/-- The pieces of `SQGUIMainWindow` state that `refresh` reads and writes:
the user name, the self-filter checkbox, and the table model. -/
structure Window where
  uname : String
  selffil : Bool
  sqmodel : SqueueGUIModel
deriving DecidableEq, Repr

/-- `SQGUIMainWindow.refresh` (lines 281-324), as a function of the outcome
of the `squeue --json` query. `refresh` contains no exception handler, so a
failing query (`subprocess`/JSON error) or a failed column projection
(pandas `KeyError`) becomes `Except.error`: the exception propagates out of
`refresh` to the Qt event loop, carrying the window state as it stands at
the raise — on both failing paths the table model has not been touched. -/
def SQGUIMainWindow.refresh (w : Window) (query : Except Unit (List RawRecord)) :
    Except (RefreshErr × Window) Window :=
  match query with
  | .error _ => .error (.sourceUnavailable, w)
  | .ok records =>
    match build records sqcols w.uname w.selffil with
    | none => .error (.schemaMismatch, w)
    | some rows =>
      .ok { w with sqmodel := w.sqmodel.update_model ⟨rows, sqcols.length⟩ sqcols }

/-- Interval-related `SQGUIMainWindow` state: the effective timer interval
`arefrte` in milliseconds and the text of the rate line edit. -/
structure RateState where
  arefrte : Int
  inputText : String
deriving DecidableEq, Repr

/-- Failure mode of an interval change. -/
inductive IntervalErr
  | InvalidInterval
deriving DecidableEq, Repr

/-- One invocation of the handler body of
`SQGUIMainWindow.change_autorefresh_rate` (lines 268-278) on an integer
input, without signal delivery (the handler first runs `int(new_rate)`; a
non-integer string takes the same `except` branch as an out-of-range
integer). In range `1..9999` the effective interval becomes
`inew_rate * 1000` milliseconds and the timer is re-armed at it; otherwise
the `except` branch runs `setText("1")`, resetting the line edit to the
default text `1`. -/
def change_autorefresh_rate_body (st : RateState) (inew_rate : Int) :
    RateState × Option IntervalErr :=
  if 0 < inew_rate ∧ inew_rate < 10000 then
    ({ st with arefrte := inew_rate * 1000 }, none)
  else
    ({ st with inputText := "1" }, some .InvalidInterval)

/-- `change_autorefresh_rate` as the program actually runs it: the handler
body plus the signal side effect of its `except` branch. `setText("1")`
(line 278) changes the line-edit text — on the `except` path the current
text parses invalid, so it cannot already be `1` — and Qt therefore fires
`textChanged` synchronously into this same handler (the connection at line
220), which re-runs the body on the text `1`; that nested run takes the
valid branch, setting the effective interval to `1 * 1000` milliseconds and
re-arming the timer, before the original call returns. -/
def change_autorefresh_rate (st : RateState) (inew_rate : Int) :
    RateState × Option IntervalErr :=
  match change_autorefresh_rate_body st inew_rate with
  | (st2, none) => (st2, none)
  | (st2, some e) => ((change_autorefresh_rate_body st2 1).1, some e)

/-- A column is homogeneously typed: every cell has the tag of the first
cell. Every column a snapshot built by `refresh` holds is of this shape. -/
def homogCol (keys : List Val) : Prop :=
  ∀ v ∈ keys, v.tag = (keys.headD (.int 0)).tag

/-- Row order that the sorting block actually establishes on the sort
column: under `Qt.DescendingOrder` the column is nondecreasing, under
`Qt.AscendingOrder` it is nonincreasing — the code applies the comparator
inverted relative to the nominal direction labels. -/
def sortedColumn (rows : List Row) (col : Nat) (order : SortOrder) : Prop :=
  match order with
  | .Descending => (colVals rows col).Pairwise (fun x y => valLe x y = true)
  | .Ascending => (colVals rows col).Pairwise (fun x y => valLe y x = true)

/-- The mutating table operations of the model, for invariant statements. -/
inductive TableOp
  | replace (new_array : NArr) (new_headers : List String)
  | sortBy (column : Nat) (order : SortOrder)

/-- Application of one table operation. -/
def applyOp (m : SqueueGUIModel) : TableOp → SqueueGUIModel
  | .replace na nh => m.update_model na nh
  | .sortBy column order => m.sort column order

/-- The calls the surrounding program actually issues: `update_model` always
receives the nonempty fixed schema, and Qt hands `sort` a header-view column
index, which is in range. -/
def opInScope (m : SqueueGUIModel) : TableOp → Prop
  | .replace _ nh => nh ≠ []
  | .sortBy column _ => column < m.headers.length

/-- The stored sort column index addresses the current headers list. -/
def sortIdxOK (m : SqueueGUIModel) : Prop := m.sortby < m.headers.length

/-! Helper lemmas about the value order and the sorting block. -/

theorem valLe_refl (a : Val) : valLe a a = true := by
  cases a <;> simp [valLe]

theorem valLe_total_of_tag {a b : Val} (h : a.tag = b.tag) :
    valLe a b = true ∨ valLe b a = true := by
  cases a <;> cases b <;> simp_all [Val.tag, valLe] <;> exact le_total ..

theorem valLe_trans {a b c : Val} (hab : valLe a b = true)
    (hbc : valLe b c = true) : valLe a c = true := by
  cases a <;> cases b <;> cases c <;> simp_all [valLe] <;> exact le_trans hab hbc

theorem keyAt_tag {keys : List Val} (h : homogCol keys) (i : Nat) :
    (keyAt keys i).tag = (keys.headD (.int 0)).tag := by
  unfold keyAt
  rcases lt_or_ge i keys.length with hi | hi
  · rw [List.getD_eq_getElem _ _ hi]
    exact h _ (List.getElem_mem hi)
  · rw [List.getD_eq_getElem?_getD, List.getElem?_eq_none hi]
    rfl

theorem argsort_pairwise {keys : List Val} (h : homogCol keys) :
    (argsort keys).Pairwise
      (fun i j => valLe (keyAt keys i) (keyAt keys j) = true) := by
  haveI : IsTotal Nat (fun i j => valLe (keyAt keys i) (keyAt keys j) = true) :=
    ⟨fun i j => valLe_total_of_tag ((keyAt_tag h i).trans (keyAt_tag h j).symm)⟩
  haveI : IsTrans Nat (fun i j => valLe (keyAt keys i) (keyAt keys j) = true) :=
    ⟨fun _ _ _ => valLe_trans⟩
  exact List.sorted_insertionSort _ _

theorem mem_argsort {keys : List Val} {i : Nat} (hi : i ∈ argsort keys) :
    i < keys.length := by
  have := (List.mem_insertionSort _).mp hi
  simpa [List.mem_range] using this

theorem length_argsort (keys : List Val) : (argsort keys).length = keys.length := by
  unfold argsort
  rw [List.length_insertionSort, List.length_range]

theorem length_colVals (rows : List Row) (c : Nat) :
    (colVals rows c).length = rows.length := by
  simp [colVals]

theorem sortRows_descending_rows (a : NArr) (col : Nat) :
    (sortRows a col .Descending).rows
      = (argsort (colVals a.rows col)).map (fun i => a.rows.getD i []) := by
  simp [sortRows]

theorem sortRows_ascending_rows (a : NArr) (col : Nat) :
    (sortRows a col .Ascending).rows
      = (argsort (colVals a.rows col)).reverse.map (fun i => a.rows.getD i []) := by
  simp [sortRows]

theorem sortRows_length (a : NArr) (col : Nat) (ord : SortOrder) :
    (sortRows a col ord).rows.length = a.rows.length := by
  cases ord
  · rw [sortRows_ascending_rows, List.length_map, List.length_reverse,
      length_argsort, length_colVals]
  · rw [sortRows_descending_rows, List.length_map, length_argsort, length_colVals]

theorem sortRows_ncols (a : NArr) (col : Nat) (ord : SortOrder) :
    (sortRows a col ord).ncols = a.ncols := by
  cases ord <;> rfl

theorem cellAt_getD_eq_keyAt {rows : List Row} {col i : Nat}
    (hi : i < rows.length) :
    cellAt col (rows.getD i []) = keyAt (colVals rows col) i := by
  have hlen : (colVals rows col).length = rows.length := length_colVals rows col
  rw [keyAt, List.getD_eq_getElem _ _ hi,
    List.getD_eq_getElem _ _ (show i < (colVals rows col).length by omega)]
  simp [colVals]

theorem sortRows_sortedColumn (a : NArr) (col : Nat) (ord : SortOrder)
    (h : homogCol (colVals a.rows col)) :
    sortedColumn (sortRows a col ord).rows col ord := by
  have hp := argsort_pairwise h
  have hp2 : (argsort (colVals a.rows col)).Pairwise
      (fun i j => valLe (cellAt col (a.rows.getD i []))
        (cellAt col (a.rows.getD j [])) = true) := by
    refine hp.imp_of_mem (fun {i j} hi hj hr => ?_)
    have hi2 : i < a.rows.length := by
      have := mem_argsort hi; rwa [length_colVals] at this
    have hj2 : j < a.rows.length := by
      have := mem_argsort hj; rwa [length_colVals] at this
    rw [cellAt_getD_eq_keyAt hi2, cellAt_getD_eq_keyAt hj2]
    exact hr
  cases ord with
  | Descending =>
    show (colVals (sortRows a col .Descending).rows col).Pairwise
      (fun x y => valLe x y = true)
    rw [sortRows_descending_rows]
    simp only [colVals, List.map_map]
    exact List.pairwise_map.mpr hp2
  | Ascending =>
    show (colVals (sortRows a col .Ascending).rows col).Pairwise
      (fun x y => valLe y x = true)
    rw [sortRows_ascending_rows]
    simp only [colVals, List.map_map, List.map_reverse]
    rw [List.pairwise_reverse]
    exact List.pairwise_map.mpr hp2

theorem listIndex_some_spec {x : String} : ∀ {l : List String} {i : Nat},
    listIndex x l = some i →
    i < l.length ∧ l.getD i "" = x ∧ ∀ j < i, l.getD j "" ≠ x := by
  intro l
  induction l with
  | nil => intro i h; simp [listIndex] at h
  | cons a t ih =>
    intro i h
    by_cases ha : a = x
    · simp only [listIndex, if_pos ha] at h
      obtain rfl : (0 : Nat) = i := by simpa using h
      exact ⟨by simp, by simpa using ha, by omega⟩
    · simp only [listIndex, if_neg ha, Option.map_eq_some'] at h
      obtain ⟨k, hk, rfl⟩ := h
      obtain ⟨h1, h2, h3⟩ := ih hk
      refine ⟨by simp; omega, by simpa using h2, ?_⟩
      intro j hj
      cases j with
      | zero => simpa using ha
      | succ j =>
        have := h3 j (by omega)
        simpa using this

theorem listIndex_none_iff {x : String} : ∀ {l : List String},
    listIndex x l = none ↔ x ∉ l := by
  intro l
  induction l with
  | nil => simp [listIndex]
  | cons a t ih =>
    by_cases ha : a = x
    · simp [listIndex, ha]
    · simp [listIndex, ha, ih, Ne.symm ha]

theorem project_eq_of_isSome {rec : RawRecord} :
    ∀ {cols : List String}, (∀ c ∈ cols, (lookupField rec c).isSome) →
    project rec cols
      = some (cols.map (fun c => (lookupField rec c).getD (.int 0))) := by
  intro cols
  induction cols with
  | nil => intro _; rfl
  | cons c cs ih =>
    intro h
    obtain ⟨v, hv⟩ := Option.isSome_iff_exists.mp (h c (by simp))
    have hrest := ih (fun d hd => h d (List.mem_cons_of_mem _ hd))
    simp [project, hv, hrest]

theorem projectAll_eq_of_isSome {cols : List String} :
    ∀ {recs : List RawRecord},
    (∀ rec ∈ recs, ∀ c ∈ cols, (lookupField rec c).isSome) →
    projectAll cols recs
      = some (recs.map
          (fun rec => cols.map (fun c => (lookupField rec c).getD (.int 0)))) := by
  intro recs
  induction recs with
  | nil => intro _; rfl
  | cons rec rest ih =>
    intro h
    have hhead := project_eq_of_isSome (h rec (by simp))
    have hrest := ih (fun s hs => h s (List.mem_cons_of_mem _ hs))
    simp [projectAll, hhead, hrest]

/-! Claim theorems. -/

/-- C1: the claim states that `sortBy(column, ascending)` puts the chosen
column in natural order smallest-first, so cpus values `[4, 1, 2]` must come
out `[1, 2, 4]`. The code instead reverses the natural-order `argsort` when
the order is `Qt.AscendingOrder` (lines 142-143), so on those rows the
resulting cpus order is `[4, 2, 1]` — the comparator is applied inverted
relative to the direction label, exactly the source inconsistency the spec
flags. -/
theorem c1_sort_ascending_gives_largest_first :
    (((SqueueGUIModel.init ⟨[[Val.int 4], [Val.int 1], [Val.int 2]], 1⟩
        ["cpus"]).sort 0 .Ascending).array.rows
      = [[Val.int 4], [Val.int 2], [Val.int 1]])
    ∧ ([[Val.int 4], [Val.int 2], [Val.int 1]]
        ≠ ([[Val.int 1], [Val.int 2], [Val.int 4]] : List Row)) := by
  decide

/-- C2: the claim states that a failed refresh cycle is caught at the
refresh-cycle boundary. `refresh` contains no exception handler, so both a
failed `squeue --json` query and a record set on which the column projection
fails raise out of `refresh` (modelled as `Except.error`) instead of being
caught; the error value carries the window state unchanged — the installed
snapshot, headers and sort state are indeed untouched, but the error is not
caught and in PyQt5 an exception escaping a slot aborts the process. -/
theorem c2_refresh_errors_propagate_uncaught :
    (∀ w : Window,
      SQGUIMainWindow.refresh w (.error ()) = .error (.sourceUnavailable, w))
    ∧ (∀ w : Window,
      SQGUIMainWindow.refresh w (.ok [[]]) = .error (.schemaMismatch, w)) :=
  ⟨fun _ => rfl, fun _ => rfl⟩

/-- C5: the claim states that rows tied in the sort column keep their
relative order for every direction. Under `Qt.AscendingOrder` the code
reverses the stable `argsort`, so two tied rows come out in reversed
relative order: on rows `[[5, "a"], [5, "b"]]` sorted on the tied column 0,
the result is `[[5, "b"], [5, "a"]]`. -/
theorem c5_ties_reversed_under_ascending :
    ((SqueueGUIModel.init
        ⟨[[Val.int 5, Val.str "a"], [Val.int 5, Val.str "b"]], 2⟩
        ["cpus", "name"]).sort 0 .Ascending).array.rows
      = [[Val.int 5, Val.str "b"], [Val.int 5, Val.str "a"]] := by
  decide

/-- C7: epoch-sentinel law. A timestamp cell is produced by
`pd.to_datetime(raw, unit="s")` (`coerceTime`) and rendered by `data`
(`displayValue`): raw value 18000 renders as the explicit `N/A` (never a
calendar date), and every other raw value becomes an instant rendered as its
ISO calendar form. -/
theorem c7_epoch_sentinel :
    (displayValue (coerceTime (.int 18000)) = .na)
    ∧ (∀ n : Int, n ≠ 18000 →
        displayValue (coerceTime (.int n)) = .isoDate n
        ∧ displayValue (coerceTime (.int n)) ≠ .na)
    ∧ (∀ s : Int, s ≠ 18000 → displayValue (.instant s) = .isoDate s) := by
  refine ⟨rfl, fun n hn => ?_, fun s hs => ?_⟩
  · simp [displayValue, coerceTime, hn]
  · simp [displayValue, hs]

/-- C7 witness: the sentinel renders as `N/A` and the non-sentinel raw value
42 renders as a calendar date. -/
theorem c7_epoch_sentinel_witness :
    displayValue (coerceTime (.int 18000)) = .na
    ∧ displayValue (coerceTime (.int 42)) = .isoDate 42 :=
  ⟨c7_epoch_sentinel.1, (c7_epoch_sentinel.2.1 42 (by decide)).1⟩

/-- C9: the claim states `sortBy(c, d)` twice equals `sortBy(c, d)` once.
With `Qt.AscendingOrder` and a tie in the sort column, each call reverses
the relative order of the tied rows, so the second call undoes the first:
one call yields `[[7, "y"], [7, "x"]]`, two calls yield `[[7, "x"], [7, "y"]]`. -/
theorem c9_double_ascending_sort_not_idempotent :
    (((SqueueGUIModel.init
        ⟨[[Val.int 7, Val.str "x"], [Val.int 7, Val.str "y"]], 2⟩
        ["cpus", "name"]).sort 0 .Ascending).array.rows
      = [[Val.int 7, Val.str "y"], [Val.int 7, Val.str "x"]])
    ∧ ((((SqueueGUIModel.init
        ⟨[[Val.int 7, Val.str "x"], [Val.int 7, Val.str "y"]], 2⟩
        ["cpus", "name"]).sort 0 .Ascending).sort 0 .Ascending).array.rows
      = [[Val.int 7, Val.str "x"], [Val.int 7, Val.str "y"]])
    ∧ ([[Val.int 7, Val.str "y"], [Val.int 7, Val.str "x"]]
        ≠ ([[Val.int 7, Val.str "x"], [Val.int 7, Val.str "y"]] : List Row)) := by
  decide

theorem update_model_sortby (m : SqueueGUIModel) (na : NArr) (nh : List String) :
    (m.update_model na nh).sortby
      = match listIndex (m.headers.getD m.sortby "") nh with
        | some i => i
        | none => 0 := rfl

theorem update_model_sortord (m : SqueueGUIModel) (na : NArr) (nh : List String) :
    (m.update_model na nh).sortord = m.sortord := rfl

theorem update_model_array (m : SqueueGUIModel) (na : NArr) (nh : List String) :
    (m.update_model na nh).array
      = sortRows na (m.update_model na nh).sortby m.sortord := rfl

/-- C3: schema-migration law of `update_model` (the `replace` operation).
If the new headers do not contain the previously active sort column name,
the sort column resets to index 0 with direction unchanged; if they do, the
sort column is rebound to the first index of that name in the new headers
(still naming the same column) and the direction is unchanged; and the
installed array is the new rows re-sorted under the resulting sort state. -/
theorem c3_update_model_schema_migration (m : SqueueGUIModel) (na : NArr)
    (nh : List String) (hsb : m.sortby < m.headers.length) :
    (m.headers.getD m.sortby "" ∉ nh →
      (m.update_model na nh).sortby = 0
      ∧ (m.update_model na nh).sortord = m.sortord)
    ∧ (m.headers.getD m.sortby "" ∈ nh →
      (m.update_model na nh).sortby < nh.length
      ∧ nh.getD (m.update_model na nh).sortby "" = m.headers.getD m.sortby ""
      ∧ (∀ j < (m.update_model na nh).sortby,
          nh.getD j "" ≠ m.headers.getD m.sortby "")
      ∧ (m.update_model na nh).sortord = m.sortord)
    ∧ (m.update_model na nh).array
        = sortRows na (m.update_model na nh).sortby m.sortord := by
  cases hli : listIndex (m.headers.getD m.sortby "") nh with
  | none =>
    have hsb0 : (m.update_model na nh).sortby = 0 := by
      rw [update_model_sortby, hli]
    refine ⟨fun _ => ⟨hsb0, update_model_sortord m na nh⟩, fun hmem => ?_,
      update_model_array m na nh⟩
    exact absurd hmem (listIndex_none_iff.mp hli)
  | some i =>
    obtain ⟨h1, h2, h3⟩ := listIndex_some_spec hli
    have hsbi : (m.update_model na nh).sortby = i := by
      rw [update_model_sortby, hli]
    have hmem2 : m.headers.getD m.sortby "" ∈ nh := by
      rw [← h2, List.getD_eq_getElem nh "" h1]
      exact List.getElem_mem h1
    refine ⟨fun hnot => absurd hmem2 hnot, fun _ => ?_, update_model_array m na nh⟩
    refine ⟨?_, ?_, ?_, update_model_sortord m na nh⟩
    · rw [hsbi]; exact h1
    · rw [hsbi]; exact h2
    · rw [hsbi]; exact h3

/-- C3 witness: starting from the initial model (sort column 0, name
`job_id`, direction descending), a replace whose schema omits `job_id`
resets the column to 0 and keeps the direction, and a replace whose schema
contains `job_id` rebinds to the index naming `job_id`. -/
theorem c3_update_model_schema_migration_witness :
    ((SqueueGUIModel.init ⟨[], 7⟩ sqcols).update_model ⟨[], 1⟩ ["cpus"]).sortby = 0
    ∧ ((SqueueGUIModel.init ⟨[], 7⟩ sqcols).update_model
        ⟨[], 1⟩ ["cpus"]).sortord = .Descending
    ∧ ["cpus", "job_id"].getD
        ((SqueueGUIModel.init ⟨[], 7⟩ sqcols).update_model
          ⟨[], 2⟩ ["cpus", "job_id"]).sortby "" = "job_id" := by
  refine ⟨?_, ?_, ?_⟩
  · exact ((c3_update_model_schema_migration (SqueueGUIModel.init ⟨[], 7⟩ sqcols)
      ⟨[], 1⟩ ["cpus"] (by decide)).1 (by decide)).1
  · exact ((c3_update_model_schema_migration (SqueueGUIModel.init ⟨[], 7⟩ sqcols)
      ⟨[], 1⟩ ["cpus"] (by decide)).1 (by decide)).2
  · exact ((c3_update_model_schema_migration (SqueueGUIModel.init ⟨[], 7⟩ sqcols)
      ⟨[], 2⟩ ["cpus", "job_id"] (by decide)).2.1 (by decide)).2.1

/-- C4: the claim states that an out-of-range input fails with
`InvalidInterval` and that the previously effective interval remains in
effect afterward. In range `1..9999` the handler behaves as claimed. On an
out-of-range input, however, the `setText("1")` reset fires a synchronous
`textChanged` re-entry of the same handler on the text `1` (connection at
line 220), which sets the effective interval to 1000 milliseconds and
re-arms the timer: after every invalid input the interval is the 1-second
default, not the previous value — whenever the previous interval differed
from 1000 ms, it does not remain in effect. -/
theorem c4_invalid_input_resets_interval_to_default (st : RateState) (n : Int) :
    (1 ≤ n ∧ n ≤ 9999 →
      change_autorefresh_rate st n = ({ st with arefrte := n * 1000 }, none))
    ∧ (n ≤ 0 ∨ 10000 ≤ n →
      change_autorefresh_rate st n
        = (⟨1000, "1"⟩, some .InvalidInterval))
    ∧ (st.arefrte ≠ 1000 → n ≤ 0 ∨ 10000 ≤ n →
      (change_autorefresh_rate st n).1.arefrte ≠ st.arefrte) := by
  have hinv : n ≤ 0 ∨ 10000 ≤ n →
      change_autorefresh_rate st n = (⟨1000, "1"⟩, some .InvalidInterval) := by
    intro h
    have hb : change_autorefresh_rate_body st n
        = ({ st with inputText := "1" }, some .InvalidInterval) := by
      rw [change_autorefresh_rate_body, if_neg (by omega)]
    have hb1 : change_autorefresh_rate_body { st with inputText := "1" } 1
        = (⟨1000, "1"⟩, none) := by
      rw [change_autorefresh_rate_body, if_pos (by omega)]
      rfl
    simp [change_autorefresh_rate, hb, hb1]
  refine ⟨fun h => ?_, hinv, fun hne h => ?_⟩
  · have hb : change_autorefresh_rate_body st n
        = ({ st with arefrte := n * 1000 }, none) := by
      rw [change_autorefresh_rate_body, if_pos (by omega)]
    simp [change_autorefresh_rate, hb]
  · rw [hinv h]
    exact Ne.symm hne

/-- C4 witness: 1 and 9999 succeed as claimed; on 0, 10000 and -5 the
handler reports the invalid interval but, through the re-entrant reset, the
previously effective 5000 ms interval is replaced by the 1000 ms default —
it does not remain in effect. -/
theorem c4_invalid_input_resets_interval_to_default_witness :
    change_autorefresh_rate ⟨5000, "5"⟩ 1 = (⟨1000, "5"⟩, none)
    ∧ change_autorefresh_rate ⟨5000, "5"⟩ 9999 = (⟨9999000, "5"⟩, none)
    ∧ change_autorefresh_rate ⟨5000, "5"⟩ 0 = (⟨1000, "1"⟩, some .InvalidInterval)
    ∧ change_autorefresh_rate ⟨5000, "5"⟩ 10000
        = (⟨1000, "1"⟩, some .InvalidInterval)
    ∧ change_autorefresh_rate ⟨5000, "5"⟩ (-5)
        = (⟨1000, "1"⟩, some .InvalidInterval)
    ∧ (change_autorefresh_rate ⟨5000, "5"⟩ 0).1.arefrte ≠ 5000 :=
  ⟨(c4_invalid_input_resets_interval_to_default ⟨5000, "5"⟩ 1).1 (by decide),
   (c4_invalid_input_resets_interval_to_default ⟨5000, "5"⟩ 9999).1 (by decide),
   (c4_invalid_input_resets_interval_to_default ⟨5000, "5"⟩ 0).2.1 (by decide),
   (c4_invalid_input_resets_interval_to_default ⟨5000, "5"⟩ 10000).2.1 (by decide),
   (c4_invalid_input_resets_interval_to_default ⟨5000, "5"⟩ (-5)).2.1 (by decide),
   (c4_invalid_input_resets_interval_to_default ⟨5000, "5"⟩ 0).2.2 (by decide)
     (by decide)⟩

/-- C10: the stored sort column index is a valid index into the current
headers after construction (with a nonempty schema) and is preserved by
every `update_model` and `sort` the program issues (`update_model` always
receives the nonempty fixed schema; Qt passes `sort` an in-range header
index) — so `self.headers[self._sortby]` at the start of the next
`update_model` never goes out of bounds. -/
theorem c10_sort_index_in_bounds :
    (∀ (a : NArr) (h : List String), h ≠ [] →
      sortIdxOK (SqueueGUIModel.init a h))
    ∧ (∀ (m : SqueueGUIModel) (op : TableOp), sortIdxOK m → opInScope m op →
      sortIdxOK (applyOp m op)) := by
  constructor
  · intro a h hne
    simpa [sortIdxOK, SqueueGUIModel.init] using List.length_pos.mpr hne
  · intro m op _ hop
    cases op with
    | sortBy column order =>
      simpa [sortIdxOK, applyOp, SqueueGUIModel.sort] using hop
    | replace na nh =>
      show (SqueueGUIModel.update_model m na nh).sortby < nh.length
      rw [update_model_sortby]
      cases hli : listIndex (m.headers.getD m.sortby "") nh with
      | none => exact List.length_pos.mpr hop
      | some i => exact (listIndex_some_spec hli).1

/-- C10 witness: the initial model over the fixed schema has a valid sort
index, and so does the result of an in-range sort on it. -/
theorem c10_sort_index_in_bounds_witness :
    sortIdxOK (SqueueGUIModel.init ⟨[], 7⟩ sqcols)
    ∧ sortIdxOK (applyOp (SqueueGUIModel.init ⟨[], 7⟩ sqcols)
        (.sortBy 3 .Ascending)) :=
  ⟨c10_sort_index_in_bounds.1 ⟨[], 7⟩ sqcols (by decide),
   c10_sort_index_in_bounds.2 (SqueueGUIModel.init ⟨[], 7⟩ sqcols)
     (.sortBy 3 .Ascending)
     (show (0 : Nat) < sqcols.length by decide)
     (show (3 : Nat) < sqcols.length by decide)⟩

/-- C6: the snapshot-building steps return exactly the records whose
`job_state` is `RUNNING` or `PENDING`, each projected onto the fixed schema
in schema order with all other fields discarded (and the timestamp columns
coerced); with the self filter on, additionally only the records whose
`user_name` equals the user. Stated against record-level filtering — the
code filters the already projected frame, so the equality is the commuting
of projection with filtering. -/
theorem c6_build_filters_and_projects (records : List RawRecord) (u : String)
    (hall : ∀ rec ∈ records, ∀ c ∈ sqcols, (lookupField rec c).isSome) :
    (build records sqcols u false
      = some ((records.filter (fun rec =>
            lookupField rec "job_state" == some (.str "RUNNING")
            || lookupField rec "job_state" == some (.str "PENDING"))).map
          (fun rec => convertTimes sqcols
            (sqcols.map (fun c => (lookupField rec c).getD (.int 0))))))
    ∧ (build records sqcols u true
      = some (((records.filter (fun rec =>
            lookupField rec "job_state" == some (.str "RUNNING")
            || lookupField rec "job_state" == some (.str "PENDING"))).filter
              (fun rec => lookupField rec "user_name" == some (.str u))).map
          (fun rec => convertTimes sqcols
            (sqcols.map (fun c => (lookupField rec c).getD (.int 0)))))) := by
  have hproj := @projectAll_eq_of_isSome sqcols records hall
  have hpt : ∀ rec ∈ records,
      ((fun row => cellAt 1 row == Val.str "RUNNING"
          || cellAt 1 row == Val.str "PENDING") ∘
        fun rec => List.map (fun c => (lookupField rec c).getD (Val.int 0)) sqcols) rec
      = (lookupField rec "job_state" == some (Val.str "RUNNING")
        || lookupField rec "job_state" == some (Val.str "PENDING")) := by
    intro rec hrec
    obtain ⟨v, hv⟩ := Option.isSome_iff_exists.mp
      (hall rec hrec "job_state" (by simp [sqcols]))
    simp [sqcols, cellAt, hv]
  have hpt2 : ∀ rec ∈ records.filter (fun rec =>
        lookupField rec "job_state" == some (Val.str "RUNNING")
        || lookupField rec "job_state" == some (Val.str "PENDING")),
      ((fun row => cellAt 2 row == Val.str u) ∘
        fun rec => List.map (fun c => (lookupField rec c).getD (Val.int 0)) sqcols) rec
      = (lookupField rec "user_name" == some (Val.str u)) := by
    intro rec hrec
    obtain ⟨v, hv⟩ := Option.isSome_iff_exists.mp
      (hall rec (List.mem_of_mem_filter hrec) "user_name" (by simp [sqcols]))
    simp [sqcols, cellAt, hv]
  have hfi : List.findIdx (fun x => x == "job_state") sqcols = 1 := rfl
  have hfu : List.findIdx (fun x => x == "user_name") sqcols = 2 := rfl
  constructor
  · unfold build
    rw [hproj]
    simp only [List.filter_map, List.map_map, Bool.false_eq_true, if_false]
    rw [hfi, List.filter_congr hpt]
    rfl
  · unfold build
    rw [hproj]
    simp only [List.filter_map, List.map_map, eq_self_iff_true, if_true]
    rw [hfi, hfu, List.filter_congr hpt]
    rw [List.filter_congr hpt2]
    rfl

/-- C6 witness: on the two-record scenario (one RUNNING job of alice, one
COMPLETED job of bob) the build keeps exactly the RUNNING row projected onto
the fixed schema with `start_time` coerced, and with the self filter on for
bob nothing survives. -/
theorem c6_build_filters_and_projects_witness :
    build
      [[("job_id", Val.int 1), ("job_state", Val.str "RUNNING"),
        ("user_name", Val.str "alice"), ("qos", Val.str "normal"),
        ("node_count", Val.int 1), ("cpus", Val.int 4),
        ("start_time", Val.int 18000)],
       [("job_id", Val.int 2), ("job_state", Val.str "COMPLETED"),
        ("user_name", Val.str "bob"), ("qos", Val.str "normal"),
        ("node_count", Val.int 1), ("cpus", Val.int 1),
        ("start_time", Val.int 200)]] sqcols "bob" false
      = some [[Val.int 1, Val.str "RUNNING", Val.str "alice",
          Val.str "normal", Val.int 1, Val.int 4, Val.instant 18000]]
    ∧ build
      [[("job_id", Val.int 1), ("job_state", Val.str "RUNNING"),
        ("user_name", Val.str "alice"), ("qos", Val.str "normal"),
        ("node_count", Val.int 1), ("cpus", Val.int 4),
        ("start_time", Val.int 18000)],
       [("job_id", Val.int 2), ("job_state", Val.str "COMPLETED"),
        ("user_name", Val.str "bob"), ("qos", Val.str "normal"),
        ("node_count", Val.int 1), ("cpus", Val.int 1),
        ("start_time", Val.int 200)]] sqcols "bob" true = some [] := by
  constructor
  · exact ((c6_build_filters_and_projects _ "bob" (by decide)).1).trans (by decide)
  · exact ((c6_build_filters_and_projects _ "bob" (by decide)).2).trans (by decide)

/-- C8 counterexample: the default sort state of the table is column 0 with
`Qt.DescendingOrder`. Installing cpus rows `[4, 1, 2]` via `update_model`
yields cpus order `[1, 2, 4]` — an increasing column, which is not sorted
descending, so the rows are not in sorted order
according to the column and direction of the current SortState, as the claim
reads. -/
theorem c8_counterexample :
    ((SqueueGUIModel.init ⟨[], 1⟩ ["cpus"]).update_model
        ⟨[[Val.int 4], [Val.int 1], [Val.int 2]], 1⟩ ["cpus"]).sortord
      = .Descending
    ∧ colVals ((SqueueGUIModel.init ⟨[], 1⟩ ["cpus"]).update_model
        ⟨[[Val.int 4], [Val.int 1], [Val.int 2]], 1⟩ ["cpus"]).array.rows 0
      = [Val.int 1, Val.int 2, Val.int 4]
    ∧ ¬ (colVals ((SqueueGUIModel.init ⟨[], 1⟩ ["cpus"]).update_model
        ⟨[[Val.int 4], [Val.int 1], [Val.int 2]], 1⟩ ["cpus"]).array.rows 0).Pairwise
        (fun x y => valLe y x = true) := by
  decide

/-- C8 amended: after `update_model` and after `sort`, `rowCount` and
`columnCount` equal the dimensions of the installed array and the rows are
ordered on the current sort column with the direction mapping inverted
relative to the labels (`Qt.DescendingOrder` gives a nondecreasing column,
`Qt.AscendingOrder` a nonincreasing one), provided the sorted column is
homogeneously typed (for `sort`, provided the cached shape matched the
array, as it always does in this program); `setData` (the `editCell`
operation) never completes an in-bounds edit — that path raises
`AttributeError` — and every call of it that does return leaves the model
unchanged and reports failure, so `editCell` cannot disturb the invariant. -/
theorem c8_amended_table_invariant :
    (∀ (m : SqueueGUIModel) (na : NArr) (nh : List String),
      (∀ col, homogCol (colVals na.rows col)) →
      (m.update_model na nh).rowCount = (m.update_model na nh).array.rows.length
      ∧ (m.update_model na nh).columnCount = (m.update_model na nh).array.ncols
      ∧ sortedColumn (m.update_model na nh).array.rows
          (m.update_model na nh).sortby (m.update_model na nh).sortord)
    ∧ (∀ (m : SqueueGUIModel) (column : Nat) (order : SortOrder),
      m.r = m.array.rows.length → m.c = m.array.ncols →
      homogCol (colVals m.array.rows column) →
      (m.sort column order).rowCount = (m.sort column order).array.rows.length
      ∧ (m.sort column order).columnCount = (m.sort column order).array.ncols
      ∧ sortedColumn (m.sort column order).array.rows column order)
    ∧ (∀ (m : SqueueGUIModel) (row column : Nat) (v : Val),
      row < m.rowCount → column < m.columnCount →
      m.setData row column v true = none)
    ∧ (∀ (m : SqueueGUIModel) (row column : Nat) (v : Val) (editRole : Bool),
      ¬ editRole ∨ m.rowCount ≤ row ∨ m.columnCount ≤ column →
      m.setData row column v editRole = some (m, false)) := by
  refine ⟨fun m na nh hhom => ⟨?_, ?_, ?_⟩,
    fun m column order hr hc hhom => ⟨?_, ?_, ?_⟩,
    fun m row column v hrow hcol => ?_,
    fun m row column v editRole h => ?_⟩
  · exact (sortRows_length na _ _).symm
  · exact (sortRows_ncols na _ _).symm
  · exact sortRows_sortedColumn na _ _ (hhom _)
  · show m.r = (sortRows m.array column order).rows.length
    rw [sortRows_length]; exact hr
  · show m.c = (sortRows m.array column order).ncols
    rw [sortRows_ncols]; exact hc
  · exact sortRows_sortedColumn m.array column order hhom
  · simp [SqueueGUIModel.setData, Nat.not_le.mpr hrow, Nat.not_le.mpr hcol]
  · cases editRole with
    | false => simp [SqueueGUIModel.setData]
    | true =>
      rcases h with h | h | h
      · exact absurd rfl h
      · simp [SqueueGUIModel.setData, h]
      · by_cases hr : m.rowCount ≤ row <;> simp [SqueueGUIModel.setData, hr, h]

/-- C8 amended witness: a concrete replace of cpus rows `[2, 1]` satisfies
the dimension equalities and the (inverted-direction) sortedness, a concrete
ascending sort does too, an in-bounds edit attempt raises, and an
out-of-bounds edit attempt returns failure leaving the model unchanged. -/
theorem c8_amended_table_invariant_witness :
    (((SqueueGUIModel.init ⟨[], 1⟩ ["cpus"]).update_model
        ⟨[[Val.int 2], [Val.int 1]], 1⟩ ["cpus"]).rowCount
      = ((SqueueGUIModel.init ⟨[], 1⟩ ["cpus"]).update_model
        ⟨[[Val.int 2], [Val.int 1]], 1⟩ ["cpus"]).array.rows.length)
    ∧ sortedColumn ((SqueueGUIModel.init ⟨[], 1⟩ ["cpus"]).update_model
        ⟨[[Val.int 2], [Val.int 1]], 1⟩ ["cpus"]).array.rows
        ((SqueueGUIModel.init ⟨[], 1⟩ ["cpus"]).update_model
          ⟨[[Val.int 2], [Val.int 1]], 1⟩ ["cpus"]).sortby
        ((SqueueGUIModel.init ⟨[], 1⟩ ["cpus"]).update_model
          ⟨[[Val.int 2], [Val.int 1]], 1⟩ ["cpus"]).sortord
    ∧ sortedColumn ((SqueueGUIModel.init
          ⟨[[Val.int 3], [Val.int 4]], 1⟩ ["cpus"]).sort 0 .Ascending).array.rows
        0 .Ascending
    ∧ (SqueueGUIModel.init ⟨[[Val.int 2]], 1⟩ ["cpus"]).setData 0 0 (Val.int 9) true
      = none
    ∧ (SqueueGUIModel.init ⟨[[Val.int 2]], 1⟩ ["cpus"]).setData 5 0 (Val.int 9) true
      = some (SqueueGUIModel.init ⟨[[Val.int 2]], 1⟩ ["cpus"], false) := by
  have hhom2 : ∀ col, homogCol (colVals [[Val.int 2], [Val.int 1]] col) := by
    intro col v hv
    simp [colVals] at hv
    rcases hv with rfl | rfl
    · rfl
    · cases col <;> rfl
  have hhom3 : homogCol (colVals [[Val.int 3], [Val.int 4]] 0) := by
    intro v hv
    simp [colVals] at hv
    rcases hv with rfl | rfl <;> rfl
  refine ⟨?_, ?_, ?_, ?_, ?_⟩
  · exact (c8_amended_table_invariant.1 (SqueueGUIModel.init ⟨[], 1⟩ ["cpus"])
      ⟨[[Val.int 2], [Val.int 1]], 1⟩ ["cpus"] hhom2).1
  · exact (c8_amended_table_invariant.1 (SqueueGUIModel.init ⟨[], 1⟩ ["cpus"])
      ⟨[[Val.int 2], [Val.int 1]], 1⟩ ["cpus"] hhom2).2.2
  · exact (c8_amended_table_invariant.2.1 (SqueueGUIModel.init
      ⟨[[Val.int 3], [Val.int 4]], 1⟩ ["cpus"]) 0 .Ascending rfl rfl hhom3).2.2
  · exact c8_amended_table_invariant.2.2.1 (SqueueGUIModel.init ⟨[[Val.int 2]], 1⟩
      ["cpus"]) 0 0 (Val.int 9) (by decide) (by decide)
  · exact c8_amended_table_invariant.2.2.2 (SqueueGUIModel.init ⟨[[Val.int 2]], 1⟩
      ["cpus"]) 5 0 (Val.int 9) true (Or.inr (Or.inl (by decide)))
